import Mathlib

/-!
Shallow embedding, in Lean 4, of the chart-logic core of the repository:
the column classifier and chart suggestion engine
(`src/utils/ChartSuggestionEngine.ts`) and the variant-compatibility table
and aggregation/binning utilities (`src/MagicCharts.tsx`), together with
theorems settling the specification claims about them.

Modelling conventions:
* JavaScript cell values are modelled by `JSVal` (a finite number, a string,
  or `null`; `null` also stands for `undefined`, since the code only ever
  tests values with the loose `v != null` which treats the two alike).
* JavaScript number arithmetic is modelled by exact rational arithmetic
  (`ℚ`); the literal `0.8` is modelled by the exact rational `4/5`.
* `Date.parse` success on a string, `Number(...)` parsing of a string, and
  the decimal rendering `Number.prototype.toString` are modelled by
  uninterpreted parameters (`dateParse`, `numParse`, `numStr`): the claims
  under study never depend on their concrete values.
* `Array.prototype.sort` (stable in ECMAScript) is modelled by Mathlib's
  stable `List.insertionSort`; the insertion order of a JS `Set` is
  modelled by `firstDedup`, which keeps first occurrences.
-/

namespace ChartSpec

/-! ### Generic list helpers -/

/-- Deduplication keeping the first occurrence of each element, mirroring
the iteration order of a JavaScript `Set` built from an array. -/
def firstDedupAux {α : Type} [DecidableEq α] (acc : List α) : List α → List α
  | [] => acc
  | x :: xs => if x ∈ acc then firstDedupAux acc xs else firstDedupAux (acc ++ [x]) xs

/-- Deduplicated list in first-occurrence order (`Array.from(new Set(a))`). -/
def firstDedup {α : Type} [DecidableEq α] (l : List α) : List α :=
  firstDedupAux [] l

theorem mem_firstDedupAux {α : Type} [DecidableEq α] {a : α} :
    ∀ {l acc : List α}, a ∈ firstDedupAux acc l ↔ a ∈ acc ∨ a ∈ l := by
  intro l
  induction l with
  | nil => intro acc; simp [firstDedupAux]
  | cons x xs ih =>
    intro acc
    by_cases hx : x ∈ acc
    · simp only [firstDedupAux, if_pos hx, ih, List.mem_cons]
      constructor
      · rintro (h | h)
        · exact Or.inl h
        · exact Or.inr (Or.inr h)
      · rintro (h | h | h)
        · exact Or.inl h
        · exact Or.inl (h ▸ hx)
        · exact Or.inr h
    · simp only [firstDedupAux, if_neg hx, ih, List.mem_append, List.mem_singleton,
        List.mem_cons]
      tauto

theorem mem_firstDedup {α : Type} [DecidableEq α] {a : α} {l : List α} :
    a ∈ firstDedup l ↔ a ∈ l := by
  simp [firstDedup, mem_firstDedupAux]

theorem nodup_firstDedupAux {α : Type} [DecidableEq α] :
    ∀ {l acc : List α}, acc.Nodup → (firstDedupAux acc l).Nodup := by
  intro l
  induction l with
  | nil => intro acc h; simpa [firstDedupAux] using h
  | cons x xs ih =>
    intro acc hacc
    by_cases hx : x ∈ acc
    · simpa [firstDedupAux, if_pos hx] using ih hacc
    · have hacc' : (acc ++ [x]).Nodup := by simp [List.nodup_append, hacc, hx]
      simpa [firstDedupAux, if_neg hx] using ih hacc'

theorem nodup_firstDedup {α : Type} [DecidableEq α] {l : List α} :
    (firstDedup l).Nodup :=
  nodup_firstDedupAux List.nodup_nil

theorem toFinset_firstDedup {α : Type} [DecidableEq α] (l : List α) :
    (firstDedup l).toFinset = l.toFinset := by
  ext a; simp [mem_firstDedup]

/-- Character-list prefix test (auxiliary for the substring test below). -/
def charsLeadWith : List Char → List Char → Bool
  | [], _ => true
  | _ :: _, [] => false
  | a :: as, b :: bs => a == b && charsLeadWith as bs

/-- Character-list substring test, modelling `String.prototype.includes`. -/
def charsContain (needle : List Char) : List Char → Bool
  | [] => charsLeadWith needle []
  | c :: rest => charsLeadWith needle (c :: rest) || charsContain needle rest

/-- Model of `hay.includes(needle)` on JavaScript strings. -/
def strIncludes (hay needle : String) : Bool :=
  charsContain needle.toList hay.toList

/-! ### JavaScript value model -/

/-- Model of a JavaScript cell value as observed by the chart-logic core:
a finite number, a string, or `null` (also standing for `undefined`). -/
inductive JSVal : Type
  | num (q : ℚ)
  | str (s : String)
  | null
deriving DecidableEq, Repr

/-- Semantic type produced by the column classifier. -/
inductive FieldType : Type
  | DIMENSION
  | MEASURE
  | DATE
deriving DecidableEq, Repr, Inhabited

/-- Cardinality tier of a field. -/
inductive CardLevel : Type
  | LOW
  | MEDIUM
  | HIGH
deriving DecidableEq, Repr, Inhabited

/-- Field descriptor returned by `analyzeField`. -/
structure Field : Type where
  name : String
  type : FieldType
  cardinality : ℕ
  cardinalityLevel : CardLevel
  uniqueValues : List JSVal
  hasNulls : Bool
  sampleValues : List JSVal
deriving DecidableEq, Repr, Inhabited

/-- Chart suggestion record `{type, priority, reason}`. -/
structure Suggestion : Type where
  type : String
  priority : ℕ
  reason : String
deriving DecidableEq, Repr, Inhabited

/-- Result of `suggestCharts` / `applyTableauRules`; the engine returns
either the sentinel (`reason` set, no analysis) or a rule-table result. -/
structure SuggestResult : Type where
  suggestions : List Suggestion
  reason : Option String := none
  fieldAnalysis : Option (List Field × List Field × List Field) := none
deriving DecidableEq, Repr

/-! ### ChartSuggestionEngine.ts -/

/-- Sublist of values with JS `typeof v === 'number' && !isNaN(v)`. -/
def numericValuesOf (values : List JSVal) : List JSVal :=
  values.filter fun v => match v with | .num _ => true | _ => false

/-- Sublist of values with `v instanceof Date || isDateString(v)`; only
strings can pass (`isDateString` rejects non-strings and `dateParse`
models whether `new Date(s)` parses). -/
def dateValuesOf (dateParse : String → Bool) (values : List JSVal) : List JSVal :=
  values.filter fun v => match v with | .str s => dateParse s | _ => false

/-- Model of JS `Number.isInteger(v)` on the values kept in
`numericValuesOf` (the non-number branch is unreachable there). -/
def isIntegerValB : JSVal → Bool
  | .num q => q.den == 1
  | _ => true

/-- Model of `determineDataType(values)`.  The float literal `0.8` is
modelled by the exact rational. -/
def determineDataType (dateParse : String → Bool) (values : List JSVal) : FieldType :=
  if (values.length : ℚ) * 0.8 < ((dateValuesOf dateParse values).length : ℚ) then .DATE
  else if (values.length : ℚ) * 0.8 < ((numericValuesOf values).length : ℚ) then
    if (firstDedup (numericValuesOf values)).length ≤ 20 ∧
        (numericValuesOf values).all isIntegerValB = true
    then .DIMENSION
    else .MEASURE
  else .DIMENSION

/-- Model of `getCardinalityLevel(count)` with the fixed thresholds 20/100. -/
def getCardinalityLevel (count : ℕ) : CardLevel :=
  if count ≤ 20 then .LOW
  else if count ≤ 100 then .MEDIUM
  else .HIGH

/-- Model of `analyzeField(data, fieldName)`.  A row is modelled as a total
map from column name to `JSVal` (an absent key reads as `null`, as in JS
where it reads `undefined` and the code filters with `v != null`). -/
def analyzeField (dateParse : String → Bool) (data : List (String → JSVal))
    (fieldName : String) : Field :=
  let values := (data.map fun row => row fieldName).filter fun v => decide (v ≠ JSVal.null)
  let uniqueValues := firstDedup values
  { name := fieldName
    type := determineDataType dateParse values
    cardinality := uniqueValues.length
    cardinalityLevel := getCardinalityLevel uniqueValues.length
    uniqueValues := uniqueValues.take 10
    hasNulls := decide (values.length < data.length)
    sampleValues := values.take 5 }

/-- Keyword list of `measuresRepresentPartsOfWhole`. -/
def partOfWholeKeywords : List String :=
  ["percentage", "percent", "share", "proportion", "ratio"]

/-- Model of `measuresRepresentPartsOfWhole(measures)`. -/
def measuresRepresentPartsOfWhole (measures : List Field) : Bool :=
  measures.any fun m => partOfWholeKeywords.any fun k => strIncludes m.name.toLower k

/-- Keyword list of `isGeographicField`. -/
def geoKeywords : List String :=
  ["country", "state", "city", "region", "location", "lat", "lng", "longitude", "latitude"]

/-- Model of `isGeographicField(fieldName)`. -/
def isGeographicField (fieldName : String) : Bool :=
  geoKeywords.any fun k => strIncludes fieldName.toLower k

/-- Value list of `containsGeographicValues`. -/
def geoValues : List String :=
  ["usa", "uk", "canada", "australia", "germany", "france", "japan", "china"]

/-- Model of `value.toString().toLowerCase()`.  `numStr` is an
uninterpreted model of the JS decimal rendering of a number; `null` never
reaches this function in the code (unique values are null-filtered). -/
def jsValToLowerString (numStr : ℚ → String) : JSVal → String
  | .str s => s.toLower
  | .num q => (numStr q).toLower
  | .null => "null"

/-- Model of `containsGeographicValues(values)`. -/
def containsGeographicValues (numStr : ℚ → String) (values : List JSVal) : Bool :=
  values.any fun v => geoValues.contains (jsValToLowerString numStr v)

/-- Priority comparison used by the final `suggestions.sort`. -/
def priorityLE (a b : Suggestion) : Prop :=
  a.priority ≤ b.priority

instance : DecidableRel priorityLE := fun a b => Nat.decLe a.priority b.priority

instance : IsTotal Suggestion priorityLE := ⟨fun a b => Nat.le_total a.priority b.priority⟩

instance : IsTrans Suggestion priorityLE := ⟨fun _ _ _ h h' => Nat.le_trans h h'⟩

/-- Rule 1 of `applyTableauRules`: single measure. -/
def rule1 (dimensions measures dates : List Field) : List Suggestion :=
  if measures.length = 1 ∧ dimensions.length = 0 ∧ dates.length = 0 then
    [⟨"histogram", 1, "Single continuous measure - show distribution"⟩] else []

/-- Rule 2: single low-cardinality dimension. -/
def rule2 (dimensions measures dates : List Field) : List Suggestion :=
  if dimensions.length = 1 ∧ measures.length = 0 ∧ dates.length = 0 ∧
      (dimensions.headD default).cardinalityLevel = .LOW then
    [⟨"bar", 1, "Single categorical dimension - show frequency"⟩] else []

/-- Rule 3: one dimension + one measure. -/
def rule3 (dimensions measures dates : List Field) : List Suggestion :=
  if dimensions.length = 1 ∧ measures.length = 1 ∧ dates.length = 0 ∧
      (dimensions.headD default).cardinalityLevel = .LOW then
    [⟨"bar", 1, "Categorical dimension with measure - compare values across categories"⟩] ++
      (if (dimensions.headD default).cardinality ≤ 7 then
        [⟨"pie", 2, "Few categories - can show parts of whole"⟩] else [])
  else []

/-- Rule 4: one date + one measure. -/
def rule4 (dimensions measures dates : List Field) : List Suggestion :=
  if dates.length = 1 ∧ measures.length = 1 ∧ dimensions.length = 0 then
    [⟨"line", 1, "Time series data - show trend over time"⟩,
     ⟨"bar", 2, "Time periods - compare values across time periods"⟩] else []

/-- Rule 5: two measures. -/
def rule5 (dimensions measures dates : List Field) : List Suggestion :=
  if measures.length = 2 ∧ dimensions.length = 0 ∧ dates.length = 0 then
    [⟨"scatter", 1, "Two continuous measures - show correlation"⟩] else []

/-- Rule 6: multiple measures + one dimension. -/
def rule6 (dimensions measures dates : List Field) : List Suggestion :=
  if 2 ≤ measures.length ∧ dimensions.length = 1 ∧ dates.length = 0 ∧
      (dimensions.headD default).cardinalityLevel = .LOW then
    [⟨"grouped_bar", 1,
      "Multiple measures with categorical dimension - compare measures across categories"⟩,
     ⟨"line", 2, "Multiple measures over categories - show trends for each measure"⟩] else []

/-- Rule 7: multiple measures + one date. -/
def rule7 (dimensions measures dates : List Field) : List Suggestion :=
  if 2 ≤ measures.length ∧ dimensions.length = 0 ∧ dates.length = 1 then
    [⟨"line", 1, "Multiple measures over time - show trends for each measure"⟩,
     ⟨"stacked_area", 2, "Multiple measures over time - show cumulative contribution"⟩] else []

/-- Rule 8: two dimensions + one measure. -/
def rule8 (dimensions measures dates : List Field) : List Suggestion :=
  if dimensions.length = 2 ∧ measures.length = 1 ∧ dates.length = 0 ∧
      (dimensions.filter fun d => decide (d.cardinalityLevel = .LOW)).length = 2 then
    [⟨"grouped_bar", 1, "Two categorical dimensions with measure - group by one dimension"⟩,
     ⟨"stacked_bar", 2, "Two categorical dimensions with measure - stack by secondary dimension"⟩,
     ⟨"heatmap", 3, "Two categorical dimensions with measure - show intensity across categories"⟩]
  else []

/-- Rule 9: one date + one dimension + one measure. -/
def rule9 (dimensions measures dates : List Field) : List Suggestion :=
  if dates.length = 1 ∧ dimensions.length = 1 ∧ measures.length = 1 ∧
      (dimensions.headD default).cardinalityLevel = .LOW then
    [⟨"line", 1, "Time series by category - show trends for each group"⟩,
     ⟨"stacked_area", 2, "Stacked area - show contribution over time"⟩,
     ⟨"grouped_bar", 3, "Grouped bars over time - compare categories within time periods"⟩]
  else []

/-- Rule 10: one date + one dimension + multiple measures. -/
def rule10 (dimensions measures dates : List Field) : List Suggestion :=
  if dates.length = 1 ∧ dimensions.length = 1 ∧ 2 ≤ measures.length ∧
      (dimensions.headD default).cardinalityLevel = .LOW then
    [⟨"line", 1, "Multiple time series by category - show trends for each measure and group"⟩,
     ⟨"stacked_area", 2, "Stacked area by category - show measure contributions over time"⟩]
  else []

/-- Rule 11: two dimensions + multiple measures. -/
def rule11 (dimensions measures dates : List Field) : List Suggestion :=
  if dimensions.length = 2 ∧ 2 ≤ measures.length ∧ dates.length = 0 ∧
      (dimensions.filter fun d => decide (d.cardinalityLevel = .LOW)).length = 2 then
    [⟨"grouped_bar", 1, "Multiple measures with two dimensions - group and compare measures"⟩,
     ⟨"heatmap", 2, "Multiple measures - create separate heatmaps for each measure"⟩] else []

/-- Rule 12: three or more measures. -/
def rule12 (dimensions measures dates : List Field) : List Suggestion :=
  if 3 ≤ measures.length ∧ dimensions.length ≤ 1 ∧ dates.length ≤ 1 then
    (if dates.length = 1 then
      [⟨"line", 1, "Multiple measures over time - parallel time series"⟩,
       ⟨"stacked_area", 2, "Multiple measures over time - show cumulative values"⟩] else []) ++
    (if dimensions.length = 1 ∧ (dimensions.headD default).cardinalityLevel = .LOW then
      [⟨"radar", 1,
        "Multiple measures by category - radar chart shows multidimensional comparison"⟩,
       ⟨"grouped_bar", 2,
        "Multiple measures by category - grouped bars for detailed comparison"⟩] else []) ++
    (if dimensions.length = 0 ∧ dates.length = 0 then
      [⟨"parallel_coordinates", 1,
        "Multiple measures only - parallel coordinates show relationships"⟩] else [])
  else []

/-- Rule 13: two measures + one dimension. -/
def rule13 (dimensions measures dates : List Field) : List Suggestion :=
  if measures.length = 2 ∧ dimensions.length = 1 ∧ dates.length = 0 ∧
      (dimensions.headD default).cardinalityLevel = .LOW then
    [⟨"scatter", 1, "Two measures with categorical dimension - scatter plot colored by category"⟩,
     ⟨"grouped_bar", 2,
      "Two measures with categorical dimension - grouped bars to compare both measures"⟩]
  else []

/-- Rule 14: the three stackable scenarios. -/
def rule14 (dimensions measures dates : List Field) : List Suggestion :=
  (if dates.length = 1 ∧ dimensions.length = 1 ∧ measures.length = 1 then
    [⟨"stacked_area", 2, "Stackable data structure - stacked_area shows composition"⟩] else []) ++
  (if 2 ≤ measures.length ∧ measuresRepresentPartsOfWhole measures = true then
    [⟨"stacked_bar", 2, "Stackable data structure - stacked_bar shows composition"⟩] else []) ++
  (if dimensions.length = 2 ∧ measures.length = 1 then
    [⟨"stacked_bar", 2, "Stackable data structure - stacked_bar shows composition"⟩] else [])

/-- Treemap pushes: one per HIGH-cardinality dimension, when a measure exists. -/
def ruleTreemap (dimensions measures : List Field) : List Suggestion :=
  if 1 ≤ measures.length then
    (dimensions.filter fun d => decide (d.cardinalityLevel = .HIGH)).map
      (fun _ => ⟨"treemap", 3, "High cardinality dimension - treemap shows hierarchy"⟩) else []

/-- Large-dataset rule: density plot. -/
def ruleDensity (measures : List Field) (recordCount : ℕ) : List Suggestion :=
  if 10000 < recordCount ∧ 2 ≤ measures.length then
    [⟨"density", 2, "Large dataset - density plot shows patterns better than individual points"⟩]
  else []

/-- Geographic-data rule. -/
def ruleGeo (numStr : ℚ → String) (dimensions measures : List Field) : List Suggestion :=
  if 0 < (dimensions.filter fun d =>
      isGeographicField d.name || containsGeographicValues numStr d.uniqueValues).length ∧
      1 ≤ measures.length then
    [⟨"map", 1, "Geographic dimension detected - map visualization"⟩] else []

/-- Unsorted suggestion list collected by the rule pushes of
`applyTableauRules`, in push order, with the `table` fallback. -/
def rawSuggestions (numStr : ℚ → String) (dimensions measures dates : List Field)
    (recordCount : ℕ) : List Suggestion :=
  let allRules :=
    rule1 dimensions measures dates ++ rule2 dimensions measures dates ++
    rule3 dimensions measures dates ++ rule4 dimensions measures dates ++
    rule5 dimensions measures dates ++ rule6 dimensions measures dates ++
    rule7 dimensions measures dates ++ rule8 dimensions measures dates ++
    rule9 dimensions measures dates ++ rule10 dimensions measures dates ++
    rule11 dimensions measures dates ++ rule12 dimensions measures dates ++
    rule13 dimensions measures dates ++ rule14 dimensions measures dates ++
    ruleTreemap dimensions measures ++ ruleDensity measures recordCount ++
    ruleGeo numStr dimensions measures
  if allRules.isEmpty then
    [⟨"table", 1, "Complex data structure - tabular view recommended"⟩]
  else allRules

/-- Model of `applyTableauRules(dimensions, measures, dates, recordCount)`:
collect the rule pushes, then stable-sort ascending by priority (the
ECMAScript `sort` is stable, modelled by `List.insertionSort`). -/
def applyTableauRules (numStr : ℚ → String) (dimensions measures dates : List Field)
    (recordCount : ℕ) : SuggestResult :=
  { suggestions :=
      List.insertionSort priorityLE (rawSuggestions numStr dimensions measures dates recordCount)
    reason := none
    fieldAnalysis := some (dimensions, measures, dates) }

/-- Model of `suggestCharts(data, selectedFields)`; `none` models a missing
(`null`/`undefined`) field list. -/
def suggestCharts (dateParse : String → Bool) (numStr : ℚ → String)
    (data : List (String → JSVal)) (selectedFields : Option (List String)) : SuggestResult :=
  match selectedFields with
  | none => { suggestions := [], reason := some "No fields selected" }
  | some fields =>
    if fields.length = 0 then { suggestions := [], reason := some "No fields selected" }
    else
      let fieldAnalysis := fields.map (analyzeField dateParse data)
      let dimensions := fieldAnalysis.filter fun f => decide (f.type = .DIMENSION)
      let measures := fieldAnalysis.filter fun f => decide (f.type = .MEASURE)
      let dates := fieldAnalysis.filter fun f => decide (f.type = .DATE)
      applyTableauRules numStr dimensions measures dates data.length

/-! ### MagicCharts.tsx: column types and the variant compatibility table -/

/-- Column type as used by the `MagicCharts` type map (the upload-side
classification `inferColumnType` produces `numeric`/`categorical`/`date`;
`other` models any other string a `Record<string, string>` could hold). -/
inductive ColType : Type
  | numeric
  | categorical
  | date
  | other
deriving DecidableEq, Repr, Inhabited

/-- Model of `Number(v)` on a non-null value: a number converts to itself
and a string through the uninterpreted parser `numParse` (`none` models
`NaN`).  `Number(null) = 0` in JS, but every caller below filters nulls
out before converting. -/
def jsToNum (numParse : String → Option ℚ) : JSVal → Option ℚ
  | .num q => some q
  | .str s => numParse s
  | .null => some 0

/-- Model of `isNumericOrdinal(values)` from `MagicCharts.tsx`: all values
integer-parseable with 2 to 10 distinct numeric values. -/
def isNumericOrdinal (numParse : String → Option ℚ) (values : List JSVal) : Bool :=
  let nonEmpty := values.filter fun v => decide (v ≠ JSVal.null ∧ v ≠ JSVal.str "")
  if nonEmpty.isEmpty then false
  else if ¬ (nonEmpty.all fun v =>
      match jsToNum numParse v with
      | some q => q.den == 1
      | none => false) then false
  else
    let unique := firstDedup (nonEmpty.map (jsToNum numParse))
    decide (2 ≤ unique.length ∧ unique.length ≤ 10)

/-- Chart variant record `{key, label, isCompatible}`; a row sample is
optional (`rows?: any[]`). -/
structure ChartVariant : Type where
  key : String
  label : String
  isCompatible : List String → (String → ColType) → Option (List (String → JSVal)) → Bool

/-- Compatibility of the Bar `count` variant. -/
def barCountCompat (cols : List String) (types : String → ColType)
    (rows : Option (List (String → JSVal))) : Bool :=
  if cols.length ≠ 1 then false
  else if types (cols.headD "") ≠ .categorical ∧ types (cols.headD "") ≠ .date then false
  else match rows with
    | none => true
    | some rs => decide ((firstDedup (rs.map fun r => r (cols.headD ""))).length ≤ 20)

/-- Compatibility of the Bar `count_horizontal` variant. -/
def barCountHorizontalCompat (cols : List String) (types : String → ColType)
    (rows : Option (List (String → JSVal))) : Bool :=
  if cols.length ≠ 1 then false
  else if types (cols.headD "") ≠ .categorical then false
  else match rows with
    | none => true
    | some rs => decide ((firstDedup (rs.map fun r => r (cols.headD ""))).length ≤ 20)

/-- Compatibility of the Bar `single` variant (order-agnostic pair). -/
def barSingleCompat (cols : List String) (types : String → ColType)
    (_rows : Option (List (String → JSVal))) : Bool :=
  decide (cols.length = 2 ∧
    ((types (cols.getD 0 "") = .categorical ∧ types (cols.getD 1 "") = .numeric) ∨
     (types (cols.getD 1 "") = .categorical ∧ types (cols.getD 0 "") = .numeric) ∨
     (types (cols.getD 0 "") = .date ∧ types (cols.getD 1 "") = .numeric) ∨
     (types (cols.getD 1 "") = .date ∧ types (cols.getD 0 "") = .numeric)))

/-- Compatibility of the Bar `single_horizontal` variant. -/
def barSingleHorizontalCompat (cols : List String) (types : String → ColType)
    (_rows : Option (List (String → JSVal))) : Bool :=
  decide (cols.length = 2 ∧
    ((types (cols.getD 0 "") = .categorical ∧ types (cols.getD 1 "") = .numeric) ∨
     (types (cols.getD 1 "") = .categorical ∧ types (cols.getD 0 "") = .numeric)))

/-- Compatibility of the Bar `multi` variant: categorical + numeric in
either order, row sample required, at most 7 distinct categories. -/
def barMultiCompat (cols : List String) (types : String → ColType)
    (rows : Option (List (String → JSVal))) : Bool :=
  if cols.length ≠ 2 then false
  else
    let catIdx : ℤ := if types (cols.getD 0 "") = .categorical then 0
      else if types (cols.getD 1 "") = .categorical then 1 else -1
    let numIdx : ℤ := if catIdx = 0 then 1 else if catIdx = 1 then 0 else -1
    if catIdx = -1 ∨ numIdx = -1 then false
    else if types (cols.getD catIdx.toNat "") ≠ .categorical ∨
        types (cols.getD numIdx.toNat "") ≠ .numeric then false
    else match rows with
      | none => false
      | some rs =>
        decide ((firstDedup (rs.map fun r => r (cols.getD catIdx.toNat ""))).length ≤ 7)

/-- Compatibility of the Bar `multi_horizontal` variant (same predicate as
`multi`). -/
def barMultiHorizontalCompat (cols : List String) (types : String → ColType)
    (rows : Option (List (String → JSVal))) : Bool :=
  barMultiCompat cols types rows

/-- Shared compatibility of the Bar `grouped`, `stacked` and `proportional`
variants. -/
def barGroupedCompat (cols : List String) (types : String → ColType)
    (_rows : Option (List (String → JSVal))) : Bool :=
  decide ((cols.length = 3 ∧
      ((types (cols.getD 0 "") = .date ∧ types (cols.getD 1 "") = .categorical ∧
          types (cols.getD 2 "") = .numeric) ∨
       (types (cols.getD 0 "") = .categorical ∧ types (cols.getD 1 "") = .categorical ∧
          types (cols.getD 2 "") = .numeric))) ∨
    (3 ≤ cols.length ∧
      (types (cols.getD 0 "") = .categorical ∨ types (cols.getD 0 "") = .date) ∧
      ∀ c ∈ cols.tail, types c = .numeric))

/-- Shared compatibility of the Line `simple` and `area` variants. -/
def lineSimpleCompat (numParse : String → Option ℚ) (cols : List String)
    (types : String → ColType) (rows : Option (List (String → JSVal))) : Bool :=
  if cols.length < 2 then false
  else if types (cols.headD "") = .date then true
  else if types (cols.headD "") = .numeric then
    match rows with
    | none => false
    | some rs => isNumericOrdinal numParse (rs.map fun r => r (cols.headD ""))
  else false

/-- Compatibility of the Line `multi` variant. -/
def lineMultiCompat (numParse : String → Option ℚ) (cols : List String)
    (types : String → ColType) (rows : Option (List (String → JSVal))) : Bool :=
  if cols.length < 3 then false
  else if types (cols.headD "") = .date then true
  else if types (cols.headD "") = .numeric then
    match rows with
    | none => false
    | some rs => isNumericOrdinal numParse (rs.map fun r => r (cols.headD ""))
  else false

/-- Shared compatibility of the Pie `standard` and `donut` variants. -/
def pieStandardCompat (cols : List String) (types : String → ColType)
    (_rows : Option (List (String → JSVal))) : Bool :=
  decide ((cols.length = 2 ∧
      ((types (cols.getD 0 "") = .categorical ∧ types (cols.getD 1 "") = .numeric) ∨
       (types (cols.getD 1 "") = .categorical ∧ types (cols.getD 0 "") = .numeric))) ∨
    (cols.length = 1 ∧ types (cols.getD 0 "") = .categorical))

/-- Compatibility of the Pie `count` variant. -/
def pieCountCompat (cols : List String) (types : String → ColType)
    (_rows : Option (List (String → JSVal))) : Bool :=
  decide (cols.length = 1 ∧ types (cols.getD 0 "") = .categorical)

/-- Compatibility of the Scatter `simple` variant. -/
def scatterSimpleCompat (cols : List String) (types : String → ColType)
    (_rows : Option (List (String → JSVal))) : Bool :=
  decide (cols.length = 2 ∧
    ((types (cols.getD 0 "") = .numeric ∧ types (cols.getD 1 "") = .numeric) ∨
     (types (cols.getD 0 "") = .categorical ∧ types (cols.getD 1 "") = .numeric) ∨
     (types (cols.getD 0 "") = .numeric ∧ types (cols.getD 1 "") = .categorical)))

/-- Compatibility of the Scatter `bubble` variant. -/
def scatterBubbleCompat (cols : List String) (types : String → ColType)
    (_rows : Option (List (String → JSVal))) : Bool :=
  decide (cols.length = 3 ∧ ∀ c ∈ cols, types c = .numeric)

/-- Compatibility of the Histogram `standard` variant. -/
def histogramStandardCompat (cols : List String) (types : String → ColType)
    (_rows : Option (List (String → JSVal))) : Bool :=
  decide (cols.length = 1 ∧ types (cols.getD 0 "") = .numeric)

/-- Model of the `CHART_VARIANTS` table, in source order. -/
def CHART_VARIANTS (numParse : String → Option ℚ) : List (String × List ChartVariant) :=
  [("Bar",
    [⟨"count", "Count Bar", barCountCompat⟩,
     ⟨"count_horizontal", "Count Horizontal Bar", barCountHorizontalCompat⟩,
     ⟨"single", "Single Colour Bar", barSingleCompat⟩,
     ⟨"single_horizontal", "Single Colour Horizontal Bar", barSingleHorizontalCompat⟩,
     ⟨"multi", "Multi Colour Bar", barMultiCompat⟩,
     ⟨"multi_horizontal", "Multi Colour Horizontal Bar", barMultiHorizontalCompat⟩,
     ⟨"grouped", "Grouped Bar", barGroupedCompat⟩,
     ⟨"stacked", "Stacked Bar", barGroupedCompat⟩,
     ⟨"proportional", "Proportional Stacked Bar", barGroupedCompat⟩]),
   ("Line",
    [⟨"simple", "Simple Line", lineSimpleCompat numParse⟩,
     ⟨"multi", "Multi-series Line", lineMultiCompat numParse⟩,
     ⟨"area", "Area Line", lineSimpleCompat numParse⟩]),
   ("Pie",
    [⟨"standard", "Standard Pie", pieStandardCompat⟩,
     ⟨"donut", "Donut", pieStandardCompat⟩,
     ⟨"count", "Count Pie", pieCountCompat⟩]),
   ("Scatter",
    [⟨"simple", "Simple Scatter", scatterSimpleCompat⟩,
     ⟨"bubble", "Bubble", scatterBubbleCompat⟩]),
   ("Histogram",
    [⟨"standard", "Standard Histogram", histogramStandardCompat⟩])]

/-- Model of the `combinations(arr, k)` helper: `k = 1` maps to
singletons, otherwise each element is prepended to the combinations of the
strictly later elements (the source recursion on `arr.slice(i + 1)`),
yielding increasing-index enumeration order. -/
def combinations : List String → ℕ → List (List String)
  | _, 0 => []
  | arr, 1 => arr.map fun x => [x]
  | [], _ + 2 => []
  | x :: rest, k + 2 =>
    ((combinations rest (k + 1)).map fun t => x :: t) ++ combinations rest (k + 2)

/-- Search order of `getAutoSelectColumns`: combination sizes 1 up to
`min 4 columns.length`, each size in the enumeration order of
`combinations`. -/
def autoSearchList (columns : List String) : List (List String) :=
  (List.range' 1 (min 4 columns.length)).flatMap fun k => combinations columns k

/-- Variant list used by `getAutoSelectColumns` for a chart type
(`'All'` flattens the whole table; an unknown family yields `[]`). -/
def variantsFor (numParse : String → Option ℚ) (chartType : String) : List ChartVariant :=
  if chartType = "All" then (CHART_VARIANTS numParse).flatMap fun e => e.2
  else ((CHART_VARIANTS numParse).lookup chartType).getD []

/-- Whether some variant of the requested family accepts the combination. -/
def anyVariantCompatible (numParse : String → Option ℚ) (chartType : String)
    (combo : List String) (types : String → ColType)
    (rows : Option (List (String → JSVal))) : Bool :=
  (variantsFor numParse chartType).any fun v => v.isCompatible combo types rows

/-- Model of `getAutoSelectColumns(chartType, columns, types, rows)`: the
first combination in search order accepted by some variant. -/
def getAutoSelectColumns (numParse : String → Option ℚ) (chartType : String)
    (columns : List String) (types : String → ColType)
    (rows : Option (List (String → JSVal))) : Option (List String) :=
  (autoSearchList columns).find? fun combo =>
    anyVariantCompatible numParse chartType combo types rows

/-! ### MagicCharts.tsx: histogram binning -/

/-- Minimum of a nonempty numeric list (`Math.min(...values)`; `0` for the
empty list, which the renderer rules out before binning). -/
def listMin : List ℚ → ℚ
  | [] => 0
  | x :: xs => xs.foldl min x

/-- Maximum of a nonempty numeric list (`Math.max(...values)`). -/
def listMax : List ℚ → ℚ
  | [] => 0
  | x :: xs => xs.foldl max x

/-- Sturges bin count `Math.max(5, Math.min(30, Math.ceil(Math.log2(n) + 1)))`;
over the reals `⌈log2 n + 1⌉ = ⌈log2 n⌉ + 1 = Nat.clog 2 n + 1`. -/
def binCount (n : ℕ) : ℕ :=
  max 5 (min 30 (Nat.clog 2 n + 1))

/-- Bin index of a value: `Math.floor((v - min) / binSize)` with the
`idx === binCount` top edge clamped into the last bin.  When
`binSize = 0` (all values equal) the JS division yields `NaN`, the floor
stays `NaN` and `counts[NaN]++` touches no bin: modelled by `none`. -/
def jsBinIndex (mn binSize : ℚ) (bc : ℕ) (v : ℚ) : Option ℤ :=
  if binSize = 0 then none
  else some (if Int.floor ((v - mn) / binSize) = (bc : ℤ) then (bc : ℤ) - 1
    else Int.floor ((v - mn) / binSize))

/-- Bin counts of the histogram renderer: `counts[i]` is the number of
values whose (clamped) bin index is `i`. -/
def histogramCounts (values : List ℚ) : List ℕ :=
  let bc := binCount values.length
  let mn := listMin values
  let binSize := (listMax values - mn) / (bc : ℚ)
  (List.range bc).map fun i : ℕ =>
    values.countP fun v => decide (jsBinIndex mn binSize bc v = some ((i : ℕ) : ℤ))

/-! ### MagicCharts.tsx: proportional stacking normalization -/

/-- Value of dataset `i` at axis position `g` (array reads out of range
give `undefined`, coerced to `0` by the code's `ds.data[g] || 0`). -/
def entryAt (datasets : List (List ℚ)) (i g : ℕ) : ℚ :=
  (datasets.getD i []).getD g 0

/-- Cross-series total of an axis position,
`datasets.reduce((acc, ds) => acc + (ds.data[g] || 0), 0)`. -/
def colTotal (datasets : List (List ℚ)) (g : ℕ) : ℚ :=
  (datasets.map fun ds => ds.getD g 0).sum

/-- One pass of the proportional normalization loop body at position `g`:
if the position total is positive every series value at `g` becomes its
percentage share, otherwise nothing is written. -/
def normalizeAt (datasets : List (List ℚ)) (g : ℕ) : List (List ℚ) :=
  if 0 < colTotal datasets g then
    datasets.map fun ds => ds.set g (100 * ds.getD g 0 / colTotal datasets g)
  else datasets

/-- Model of the proportional-variant normalization loop
(`for (let g = 0; g < groups.length; g++) ...`). -/
def proportionalNormalize (datasets : List (List ℚ)) (numGroups : ℕ) : List (List ℚ) :=
  (List.range numGroups).foldl normalizeAt datasets

/-! ### MagicCharts.tsx: multi-series pivot -/

/-- Row of the three-column multi-series line pivot
(`[dateCol, catCol, valueCol]` with a numeric value column). -/
structure PivotRow : Type where
  date : String
  cat : String
  value : ℚ
deriving DecidableEq, Repr

/-- Sorted distinct axis values,
`Array.from(new Set(rows.map(r => r[dateCol]))).sort()` (the default JS
sort on strings is lexicographic and stable). -/
def pivotDates (rows : List PivotRow) : List String :=
  List.insertionSort (· ≤ ·) (firstDedup (rows.map PivotRow.date))

/-- Distinct category values in first-occurrence order. -/
def pivotCats (rows : List PivotRow) : List String :=
  firstDedup (rows.map PivotRow.cat)

/-- Series entry for category `c` at axis value `d`: `null` when no row
matches, otherwise the mean of the matching rows' values. -/
def pivotEntry (rows : List PivotRow) (c d : String) : Option ℚ :=
  let filtered := rows.filter fun r => decide (r.date = d ∧ r.cat = c)
  if filtered.length = 0 then none
  else some ((filtered.map PivotRow.value).sum / (filtered.length : ℚ))

/-- Model of the multi-series line pivot: one series per distinct
category, each aligned to the sorted distinct axis values. -/
def multiSeriesPivot (rows : List PivotRow) : List (String × List (Option ℚ)) :=
  (pivotCats rows).map fun c => (c, (pivotDates rows).map fun d => pivotEntry rows c d)

/-- Sublist of values parseable as a finite number in the sense of the
claim and spec wording: actual numbers plus strings that `Number(...)`
parses to a finite number (the `numParse` oracle).  This follows the
claim's words, not the source: `determineDataType` itself never parses
strings, which is exactly the divergence the C1 counterexample exhibits. -/
def parseableValuesOf (numParse : String → Option ℚ) (values : List JSVal) : List JSVal :=
  values.filter fun v => match v with
    | .num _ => true
    | .str s => (numParse s).isSome
    | .null => false

/-- Number parser instance for the C1 counterexample column: the three
"Sales Amount" cells of the repository's e-commerce sample dataset parse
to the non-integer rationals 1250.5, 890.25 and 2100.75. -/
def cxNumParse : String → Option ℚ := fun s =>
  if s = "1250.50" then some ⟨2501, 2, by norm_num, by norm_num⟩
  else if s = "890.25" then some ⟨3561, 4, by norm_num, by norm_num⟩
  else if s = "2100.75" then some ⟨8403, 4, by norm_num, by norm_num⟩
  else none

/-- The C1 counterexample column: string-encoded numeric cells, the shape
every column has in the app's pipeline (`Papa.parse` is called without
`dynamicTyping`, so cells reach the engine as strings). -/
def cxColumn : List JSVal :=
  [.str "1250.50", .str "890.25", .str "2100.75"]

/-! ### Claim theorems -/

/-- C1 (amended): for every value list in which the fraction of entries
that are actual finite numbers (JS `typeof v === 'number'`) exceeds 0.8
while the date-parseable fraction does not, `determineDataType` returns
`DIMENSION` when there are at most 20 distinct numeric values, all
integers, and `MEASURE` otherwise.  Values merely *parseable* as finite
numbers (numeric strings) are not counted as numeric by the code — see
the counterexample preceding this theorem's witness. -/
theorem claim1_classifier_numeric_split (dateParse : String → Bool) (values : List JSVal)
    (hdate : ¬ ((values.length : ℚ) * 0.8 < ((dateValuesOf dateParse values).length : ℚ)))
    (hnum : (values.length : ℚ) * 0.8 < ((numericValuesOf values).length : ℚ)) :
    ((firstDedup (numericValuesOf values)).length ≤ 20 ∧
        (∀ v ∈ numericValuesOf values, isIntegerValB v = true) →
      determineDataType dateParse values = .DIMENSION) ∧
    (¬ ((firstDedup (numericValuesOf values)).length ≤ 20 ∧
        ∀ v ∈ numericValuesOf values, isIntegerValB v = true) →
      determineDataType dateParse values = .MEASURE) := by
  unfold determineDataType
  rw [if_neg hdate, if_pos hnum]
  constructor
  · rintro ⟨h1, h2⟩
    rw [if_pos ⟨h1, List.all_eq_true.mpr h2⟩]
  · intro h
    rw [if_neg]
    intro hc
    exact h ⟨hc.1, List.all_eq_true.mp hc.2⟩

/-- Counterexample for C1 as stated: a column of string-encoded numeric
cells (the e-commerce sample's "Sales Amount" values).  Every entry is
parseable as a finite number (fraction 1 > 0.8), none is date-parseable,
and the parsed values are not all integers, so the claim demands
`MEASURE`; but `determineDataType` counts only `typeof v === 'number'`
values as numeric, finds none, and falls through to the `DIMENSION`
fallback. -/
theorem claim1_counterexample :
    parseableValuesOf cxNumParse cxColumn = cxColumn ∧
    ((cxColumn.length : ℚ) * 0.8 < ((parseableValuesOf cxNumParse cxColumn).length : ℚ)) ∧
    dateValuesOf (fun _ => false) cxColumn = [] ∧
    (∃ v ∈ parseableValuesOf cxNumParse cxColumn, ∃ q : ℚ,
      jsToNum cxNumParse v = some q ∧ ¬ q.den = 1) ∧
    determineDataType (fun _ => false) cxColumn = .DIMENSION := by
  have hp : parseableValuesOf cxNumParse cxColumn = cxColumn := by decide
  refine ⟨hp, ?_, by decide, ?_, ?_⟩
  · rw [hp]
    norm_num [cxColumn]
  · exact ⟨.str "1250.50", by decide, ⟨2501, 2, by norm_num, by norm_num⟩, by decide, by decide⟩
  · have hd : dateValuesOf (fun _ => false) cxColumn = [] := by decide
    have hn : numericValuesOf cxColumn = [] := by decide
    unfold determineDataType
    rw [hd, hn]
    norm_num [cxColumn]

/-- Closed witness for C1: a two-valued integer column classifies as
`DIMENSION`, and a column of 21 distinct integers classifies as `MEASURE`. -/
theorem claim1_witness :
    determineDataType (fun _ => false) [.num 0, .num 1] = .DIMENSION ∧
    determineDataType (fun _ => false)
      [.num 0, .num 1, .num 2, .num 3, .num 4, .num 5, .num 6, .num 7, .num 8, .num 9,
       .num 10, .num 11, .num 12, .num 13, .num 14, .num 15, .num 16, .num 17, .num 18,
       .num 19, .num 20] = .MEASURE := by
  constructor
  · exact (claim1_classifier_numeric_split (fun _ => false) [.num 0, .num 1]
      (by norm_num [dateValuesOf]) (by norm_num [numericValuesOf])).1 (by decide)
  · exact (claim1_classifier_numeric_split (fun _ => false)
      [.num 0, .num 1, .num 2, .num 3, .num 4, .num 5, .num 6, .num 7, .num 8, .num 9,
       .num 10, .num 11, .num 12, .num 13, .num 14, .num 15, .num 16, .num 17, .num 18,
       .num 19, .num 20]
      (by norm_num [dateValuesOf]) (by norm_num [numericValuesOf])).2 (by decide)

/-- C7: the Bar `single` and Pie `standard` compatibility predicates give
the same verdict on `[a, b]` and `[b, a]` when one column is categorical
and the other numeric. -/
theorem claim7_order_independence (a b : String) (types : String → ColType)
    (rows : Option (List (String → JSVal)))
    (ha : types a = .categorical) (hb : types b = .numeric) :
    barSingleCompat [a, b] types rows = barSingleCompat [b, a] types rows ∧
    pieStandardCompat [a, b] types rows = pieStandardCompat [b, a] types rows := by
  constructor
  · simp [barSingleCompat, ha, hb]
  · simp [pieStandardCompat, ha, hb]

/-- Closed witness for C7 at the spec's `region`/`sales` example. -/
theorem claim7_witness :
    barSingleCompat ["region", "sales"]
        (fun s => if s = "region" then .categorical else .numeric) none =
      barSingleCompat ["sales", "region"]
        (fun s => if s = "region" then .categorical else .numeric) none ∧
    pieStandardCompat ["region", "sales"]
        (fun s => if s = "region" then .categorical else .numeric) none =
      pieStandardCompat ["sales", "region"]
        (fun s => if s = "region" then .categorical else .numeric) none :=
  claim7_order_independence "region" "sales"
    (fun s => if s = "region" then .categorical else .numeric) none
    (by decide) (by decide)

/-- C8: an absent or empty field selection yields the sentinel result
`{suggestions: [], reason: 'No fields selected'}` for any data. -/
theorem claim8_empty_selection (dateParse : String → Bool) (numStr : ℚ → String)
    (data : List (String → JSVal)) (sel : Option (List String))
    (h : sel = none ∨ sel = some []) :
    suggestCharts dateParse numStr data sel =
      { suggestions := [], reason := some "No fields selected", fieldAnalysis := none } := by
  rcases h with h | h <;> subst h <;> simp [suggestCharts]

/-- Closed witness for C8 on both sentinel-triggering selections. -/
theorem claim8_witness :
    suggestCharts (fun _ => false) (fun _ => "") [] none =
      { suggestions := [], reason := some "No fields selected", fieldAnalysis := none } ∧
    suggestCharts (fun _ => false) (fun _ => "") [fun _ => JSVal.null] (some []) =
      { suggestions := [], reason := some "No fields selected", fieldAnalysis := none } :=
  ⟨claim8_empty_selection (fun _ => false) (fun _ => "") [] none (Or.inl rfl),
   claim8_empty_selection (fun _ => false) (fun _ => "") [fun _ => JSVal.null] (some [])
     (Or.inr rfl)⟩

/-- Stability of the priority sort: the equal-priority entries of the
sorted list are exactly those of the unsorted push list, in push order. -/
theorem insertionSort_filter_priority (l : List Suggestion) (p : ℕ) :
    (List.insertionSort priorityLE l).filter (fun s => decide (s.priority = p)) =
      l.filter (fun s => decide (s.priority = p)) := by
  have hperm :
      ((List.insertionSort priorityLE l).filter fun s => decide (s.priority = p)).Perm
        (l.filter fun s => decide (s.priority = p)) :=
    (List.perm_insertionSort priorityLE l).filter _
  have hsub : (l.filter fun s => decide (s.priority = p)).Sublist
      (List.insertionSort priorityLE l) := by
    apply List.sublist_insertionSort
    · apply List.pairwise_of_forall_mem_list
      intro a ha b hb
      have hap : a.priority = p := by simpa using (List.mem_filter.mp ha).2
      have hbp : b.priority = p := by simpa using (List.mem_filter.mp hb).2
      show a.priority ≤ b.priority
      rw [hap, hbp]
    · exact List.filter_sublist l
  have hself : ((l.filter fun s => decide (s.priority = p)).filter
      fun s => decide (s.priority = p)) = l.filter fun s => decide (s.priority = p) :=
    List.filter_eq_self.mpr fun a ha => (List.mem_filter.mp ha).2
  have hsub2 : (l.filter fun s => decide (s.priority = p)).Sublist
      ((List.insertionSort priorityLE l).filter fun s => decide (s.priority = p)) := by
    have h := List.Sublist.filter (fun s => decide (s.priority = p)) hsub
    rwa [hself] at h
  exact (hsub2.eq_of_length hperm.length_eq.symm).symm

/-- Unfolding of `rawSuggestions` when some rule fired: the rule-push
concatenation, bypassing the `table` fallback. -/
theorem rawSuggestions_eq (numStr : ℚ → String) (dims ms dts : List Field) (rc : ℕ)
    (h : rule1 dims ms dts ++ rule2 dims ms dts ++ rule3 dims ms dts ++
      rule4 dims ms dts ++ rule5 dims ms dts ++ rule6 dims ms dts ++
      rule7 dims ms dts ++ rule8 dims ms dts ++ rule9 dims ms dts ++
      rule10 dims ms dts ++ rule11 dims ms dts ++ rule12 dims ms dts ++
      rule13 dims ms dts ++ rule14 dims ms dts ++ ruleTreemap dims ms ++
      ruleDensity ms rc ++ ruleGeo numStr dims ms ≠ []) :
    rawSuggestions numStr dims ms dts rc =
      rule1 dims ms dts ++ rule2 dims ms dts ++ rule3 dims ms dts ++
      rule4 dims ms dts ++ rule5 dims ms dts ++ rule6 dims ms dts ++
      rule7 dims ms dts ++ rule8 dims ms dts ++ rule9 dims ms dts ++
      rule10 dims ms dts ++ rule11 dims ms dts ++ rule12 dims ms dts ++
      rule13 dims ms dts ++ rule14 dims ms dts ++ ruleTreemap dims ms ++
      ruleDensity ms rc ++ ruleGeo numStr dims ms := by
  simp only [rawSuggestions]
  rw [if_neg fun hc => h (List.isEmpty_iff.mp hc)]

/-- C2: on one date field and one measure field (no dimensions) the engine
returns exactly `line` at priority 1 then `bar` at priority 2; in general
the suggestion list is ascending in priority, with equal priorities kept
in rule-table push order (stable sort). -/
theorem claim2_priority_order :
    (∀ (numStr : ℚ → String) (d m : Field) (rc : ℕ),
      (applyTableauRules numStr [] [m] [d] rc).suggestions =
        [⟨"line", 1, "Time series data - show trend over time"⟩,
         ⟨"bar", 2, "Time periods - compare values across time periods"⟩]) ∧
    (∀ (numStr : ℚ → String) (dims ms dts : List Field) (rc : ℕ),
      List.Sorted priorityLE (applyTableauRules numStr dims ms dts rc).suggestions) ∧
    (∀ (numStr : ℚ → String) (dims ms dts : List Field) (rc : ℕ) (p : ℕ),
      ((applyTableauRules numStr dims ms dts rc).suggestions.filter
          fun s => decide (s.priority = p)) =
        ((rawSuggestions numStr dims ms dts rc).filter fun s => decide (s.priority = p))) := by
  refine ⟨?_, ?_, ?_⟩
  · intro numStr d m rc
    have hraw : rawSuggestions numStr [] [m] [d] rc =
        [⟨"line", 1, "Time series data - show trend over time"⟩,
         ⟨"bar", 2, "Time periods - compare values across time periods"⟩] := by
      simp only [rawSuggestions]
      rw [show rule1 [] [m] [d] = [] from by simp [rule1],
        show rule2 [] [m] [d] = [] from by simp [rule2],
        show rule3 [] [m] [d] = [] from by simp [rule3],
        show rule4 [] [m] [d] =
          [⟨"line", 1, "Time series data - show trend over time"⟩,
           ⟨"bar", 2, "Time periods - compare values across time periods"⟩] from by
          simp [rule4],
        show rule5 [] [m] [d] = [] from by simp [rule5],
        show rule6 [] [m] [d] = [] from by simp [rule6],
        show rule7 [] [m] [d] = [] from by simp [rule7],
        show rule8 [] [m] [d] = [] from by simp [rule8],
        show rule9 [] [m] [d] = [] from by simp [rule9],
        show rule10 [] [m] [d] = [] from by simp [rule10],
        show rule11 [] [m] [d] = [] from by simp [rule11],
        show rule12 [] [m] [d] = [] from by simp [rule12],
        show rule13 [] [m] [d] = [] from by simp [rule13],
        show rule14 [] [m] [d] = [] from by simp [rule14],
        show ruleTreemap [] [m] = [] from by simp [ruleTreemap],
        show ruleDensity [m] rc = [] from by simp [ruleDensity],
        show ruleGeo numStr [] [m] = [] from by simp [ruleGeo]]
      rfl
    simp only [applyTableauRules]
    rw [hraw]
    simp [List.insertionSort, List.orderedInsert, priorityLE]
  · intro numStr dims ms dts rc
    simp only [applyTableauRules]
    exact List.sorted_insertionSort priorityLE _
  · intro numStr dims ms dts rc p
    simp only [applyTableauRules]
    exact insertionSort_filter_priority _ p

/-- C10: with one date, one dimension and one measure the engine always
suggests `stacked_area` at priority 2 (the stackable-scenario push fires
for any cardinality tier), and when the dimension is LOW-cardinality the
list carries exactly two `stacked_area` priority-2 entries (rule 9 plus
the stackable scenario). -/
theorem claim10_duplicate_stacked_area (numStr : ℚ → String) (dt d m : Field) (rc : ℕ) :
    (∃ s ∈ (applyTableauRules numStr [d] [m] [dt] rc).suggestions,
      s.type = "stacked_area" ∧ s.priority = 2) ∧
    (d.cardinalityLevel = .LOW →
      ((applyTableauRules numStr [d] [m] [dt] rc).suggestions.countP
        fun s => decide (s.type = "stacked_area" ∧ s.priority = 2)) = 2) := by
  have h14 :
      (⟨"stacked_area", 2, "Stackable data structure - stacked_area shows composition"⟩ :
        Suggestion) ∈ rule14 [d] [m] [dt] := by
    simp [rule14]
  have hchain :
      (⟨"stacked_area", 2, "Stackable data structure - stacked_area shows composition"⟩ :
        Suggestion) ∈
        rule1 [d] [m] [dt] ++ rule2 [d] [m] [dt] ++ rule3 [d] [m] [dt] ++
        rule4 [d] [m] [dt] ++ rule5 [d] [m] [dt] ++ rule6 [d] [m] [dt] ++
        rule7 [d] [m] [dt] ++ rule8 [d] [m] [dt] ++ rule9 [d] [m] [dt] ++
        rule10 [d] [m] [dt] ++ rule11 [d] [m] [dt] ++ rule12 [d] [m] [dt] ++
        rule13 [d] [m] [dt] ++ rule14 [d] [m] [dt] ++ ruleTreemap [d] [m] ++
        ruleDensity [m] rc ++ ruleGeo numStr [d] [m] :=
    List.mem_append_left _ (List.mem_append_left _ (List.mem_append_left _
      (List.mem_append_right _ h14)))
  have hraw := rawSuggestions_eq numStr [d] [m] [dt] rc (List.ne_nil_of_mem hchain)
  have hmem :
      (⟨"stacked_area", 2, "Stackable data structure - stacked_area shows composition"⟩ :
        Suggestion) ∈ rawSuggestions numStr [d] [m] [dt] rc := by
    rw [hraw]; exact hchain
  constructor
  · simp only [applyTableauRules]
    exact ⟨_, (List.mem_insertionSort priorityLE).mpr hmem, rfl, rfl⟩
  · intro hLOW
    simp only [applyTableauRules]
    rw [(List.perm_insertionSort priorityLE
        (rawSuggestions numStr [d] [m] [dt] rc)).countP_eq, hraw]
    simp only [List.countP_append]
    rw [show rule1 [d] [m] [dt] = [] from by simp [rule1],
      show rule2 [d] [m] [dt] = [] from by simp [rule2],
      show rule3 [d] [m] [dt] = [] from by simp [rule3],
      show rule4 [d] [m] [dt] = [] from by simp [rule4],
      show rule5 [d] [m] [dt] = [] from by simp [rule5],
      show rule6 [d] [m] [dt] = [] from by simp [rule6],
      show rule7 [d] [m] [dt] = [] from by simp [rule7],
      show rule8 [d] [m] [dt] = [] from by simp [rule8],
      show rule9 [d] [m] [dt] =
        [⟨"line", 1, "Time series by category - show trends for each group"⟩,
         ⟨"stacked_area", 2, "Stacked area - show contribution over time"⟩,
         ⟨"grouped_bar", 3, "Grouped bars over time - compare categories within time periods"⟩]
        from by simp [rule9, hLOW],
      show rule10 [d] [m] [dt] = [] from by simp [rule10],
      show rule11 [d] [m] [dt] = [] from by simp [rule11],
      show rule12 [d] [m] [dt] = [] from by simp [rule12],
      show rule13 [d] [m] [dt] = [] from by simp [rule13],
      show rule14 [d] [m] [dt] =
        [⟨"stacked_area", 2, "Stackable data structure - stacked_area shows composition"⟩]
        from by simp [rule14],
      show ruleTreemap [d] [m] = [] from by simp [ruleTreemap, hLOW],
      show ruleDensity [m] rc = [] from by simp [ruleDensity]]
    have hgeo : (ruleGeo numStr [d] [m]).countP
        (fun s => decide (s.type = "stacked_area" ∧ s.priority = 2)) = 0 := by
      unfold ruleGeo
      split
      · simp [List.countP_cons]
      · simp
    rw [hgeo]
    simp [List.countP_cons, List.countP_nil]

/-- Closed witness for C10 on the spec's Date/Platform/Followers shape. -/
theorem claim10_witness :
    (∃ s ∈ (applyTableauRules (fun _ => "")
        [⟨"Platform", .DIMENSION, 3, .LOW, [], false, []⟩]
        [⟨"Followers", .MEASURE, 10, .LOW, [], false, []⟩]
        [⟨"Date", .DATE, 6, .LOW, [], false, []⟩] 18).suggestions,
      s.type = "stacked_area" ∧ s.priority = 2) ∧
    ((applyTableauRules (fun _ => "")
        [⟨"Platform", .DIMENSION, 3, .LOW, [], false, []⟩]
        [⟨"Followers", .MEASURE, 10, .LOW, [], false, []⟩]
        [⟨"Date", .DATE, 6, .LOW, [], false, []⟩] 18).suggestions.countP
      fun s => decide (s.type = "stacked_area" ∧ s.priority = 2)) = 2 := by
  have h := claim10_duplicate_stacked_area (fun _ => "")
    ⟨"Date", .DATE, 6, .LOW, [], false, []⟩
    ⟨"Platform", .DIMENSION, 3, .LOW, [], false, []⟩
    ⟨"Followers", .MEASURE, 10, .LOW, [], false, []⟩ 18
  exact ⟨h.1, h.2 rfl⟩

/-- C9 (amended): `analyzeField` sets `hasNulls` if and only if some row
value is null or undefined — an empty-string value does NOT count, since
the code filters with the loose `v != null` only — and the stored
cardinality is the exact number of distinct non-null values of the full
column, unaffected by the 10-item truncation of `uniqueValues`. -/
theorem claim9_analyzeField_amended (dateParse : String → Bool)
    (data : List (String → JSVal)) (f : String) :
    ((analyzeField dateParse data f).hasNulls = true ↔ ∃ row ∈ data, row f = JSVal.null) ∧
    (analyzeField dateParse data f).cardinality =
      ((data.map fun row => row f).filter fun v => decide (v ≠ JSVal.null)).toFinset.card ∧
    (analyzeField dateParse data f).uniqueValues.length ≤ 10 := by
  refine ⟨?_, ?_, ?_⟩
  · show decide (((data.map fun row => row f).filter
        fun v => decide (v ≠ JSVal.null)).length < data.length) = true ↔ _
    rw [decide_eq_true_eq]
    have hlen : data.length = (data.map fun row => row f).length := (List.length_map _ _).symm
    rw [hlen, List.length_filter_lt_length_iff_exists]
    constructor
    · rintro ⟨v, hv, hnv⟩
      obtain ⟨row, hrow, rfl⟩ := List.mem_map.mp hv
      exact ⟨row, hrow, by simpa using hnv⟩
    · rintro ⟨row, hrow, hnull⟩
      exact ⟨row f, List.mem_map.mpr ⟨row, hrow, rfl⟩, by simp [hnull]⟩
  · show (firstDedup ((data.map fun row => row f).filter
        fun v => decide (v ≠ JSVal.null))).length = _
    rw [← toFinset_firstDedup ((data.map fun row => row f).filter
        fun v => decide (v ≠ JSVal.null))]
    exact (List.toFinset_card_of_nodup nodup_firstDedup).symm
  · show ((firstDedup ((data.map fun row => row f).filter
        fun v => decide (v ≠ JSVal.null))).take 10).length ≤ 10
    rw [List.length_take]
    exact min_le_left _ _

/-- Counterexample for C9 as stated: a single row whose value for the
column is the empty string.  The claim says `hasNulls` must be true
(empty string present); the code computes `hasNulls = false` because the
`v != null` filter keeps empty strings. -/
theorem claim9_counterexample :
    ((fun _ => JSVal.str "") : String → JSVal) "x" = JSVal.str "" ∧
    (analyzeField (fun _ => false) [fun _ => JSVal.str ""] "x").hasNulls = false :=
  ⟨rfl, rfl⟩

theorem getD_set_self (l : List ℚ) (i : ℕ) (x : ℚ) (h : i < l.length) :
    (l.set i x).getD i 0 = x := by
  rw [List.getD_eq_getElem?_getD, List.getElem?_set_self h, Option.getD_some]

theorem getD_set_ne (l : List ℚ) (i j : ℕ) (x : ℚ) (h : i ≠ j) :
    (l.set i x).getD j 0 = l.getD j 0 := by
  rw [List.getD_eq_getElem?_getD, List.getElem?_set_ne h, ← List.getD_eq_getElem?_getD]

/-- Effect of one normalization pass on a single entry: position `g` is
rescaled when the position total is positive, everything else unchanged. -/
theorem normalizeAt_entry (dss : List (List ℚ)) (L g i g' : ℕ)
    (hall : ∀ d ∈ dss, d.length = L) (hg : g < L) :
    entryAt (normalizeAt dss g) i g' =
      if g' = g ∧ 0 < colTotal dss g then 100 * entryAt dss i g' / colTotal dss g
      else entryAt dss i g' := by
  by_cases hpos : 0 < colTotal dss g
  · unfold normalizeAt entryAt
    rw [if_pos hpos]
    rcases hdi : dss[i]? with _ | d
    · have hmap : (dss.map fun d0 => d0.set g (100 * d0.getD g 0 / colTotal dss g))[i]? =
          (none : Option (List ℚ)) := by
        rw [List.getElem?_map, hdi]; rfl
      have hout : (dss.map fun d0 =>
          d0.set g (100 * d0.getD g 0 / colTotal dss g)).getD i ([] : List ℚ) = [] := by
        rw [List.getD_eq_getElem?_getD, hmap]; rfl
      have hout2 : dss.getD i ([] : List ℚ) = [] := by
        rw [List.getD_eq_getElem?_getD, hdi]; rfl
      rw [hout, hout2]
      by_cases hg' : g' = g
      · rw [if_pos ⟨hg', hpos⟩]; simp
      · rw [if_neg fun hc => hg' hc.1]
    · have hdl : d.length = L := hall d (List.getElem?_mem hdi)
      have hmap : (dss.map fun d0 => d0.set g (100 * d0.getD g 0 / colTotal dss g))[i]? =
          some (d.set g (100 * d.getD g 0 / colTotal dss g)) := by
        rw [List.getElem?_map, hdi]; rfl
      have hout : (dss.map fun d0 =>
          d0.set g (100 * d0.getD g 0 / colTotal dss g)).getD i ([] : List ℚ) =
          d.set g (100 * d.getD g 0 / colTotal dss g) := by
        rw [List.getD_eq_getElem?_getD, hmap]; rfl
      have hout2 : dss.getD i ([] : List ℚ) = d := by
        rw [List.getD_eq_getElem?_getD, hdi]; rfl
      rw [hout, hout2]
      by_cases hg' : g' = g
      · subst hg'
        rw [getD_set_self d g' _ (by rw [hdl]; exact hg), if_pos ⟨rfl, hpos⟩]
      · rw [getD_set_ne d g g' _ fun h => hg' h.symm, if_neg fun hc => hg' hc.1]
  · unfold normalizeAt
    rw [if_neg hpos, if_neg fun hc => hpos hc.2]

theorem normalizeAt_length_mem (dss : List (List ℚ)) (L g : ℕ)
    (hall : ∀ d ∈ dss, d.length = L) : ∀ d ∈ normalizeAt dss g, d.length = L := by
  unfold normalizeAt
  split
  · intro d hd
    obtain ⟨d0, hd0, rfl⟩ := List.mem_map.mp hd
    rw [List.length_set]
    exact hall d0 hd0
  · exact hall

theorem colTotal_normalizeAt (dss : List (List ℚ)) (g g' : ℕ) (h : g' ≠ g) :
    colTotal (normalizeAt dss g) g' = colTotal dss g' := by
  unfold normalizeAt
  split
  · unfold colTotal
    rw [List.map_map]
    refine congrArg List.sum (List.map_congr_left fun d _ => ?_)
    exact getD_set_ne d g g' _ fun hc => h hc.symm
  · rfl

theorem propNorm_succ (dss : List (List ℚ)) (n : ℕ) :
    proportionalNormalize dss (n + 1) = normalizeAt (proportionalNormalize dss n) n := by
  unfold proportionalNormalize
  rw [List.range_succ, List.foldl_append]
  rfl

theorem propNorm_length_mem (dss : List (List ℚ)) (L n : ℕ)
    (hall : ∀ d ∈ dss, d.length = L) :
    ∀ d ∈ proportionalNormalize dss n, d.length = L := by
  induction n with
  | zero => simpa [proportionalNormalize] using hall
  | succ n ih =>
    rw [propNorm_succ]
    exact normalizeAt_length_mem _ L n ih

theorem colTotal_propNorm (dss : List (List ℚ)) (n g : ℕ) (h : n ≤ g) :
    colTotal (proportionalNormalize dss n) g = colTotal dss g := by
  induction n with
  | zero => simp [proportionalNormalize]
  | succ n ih =>
    rw [propNorm_succ, colTotal_normalizeAt _ n g (by omega), ih (by omega)]

/-- Entry-level characterization of the whole normalization loop. -/
theorem propNorm_entry (dss : List (List ℚ)) (L : ℕ) (hall : ∀ d ∈ dss, d.length = L) :
    ∀ n, n ≤ L → ∀ i g,
      entryAt (proportionalNormalize dss n) i g =
        if g < n ∧ 0 < colTotal dss g then 100 * entryAt dss i g / colTotal dss g
        else entryAt dss i g := by
  intro n
  induction n with
  | zero => intro _ i g; simp [proportionalNormalize]
  | succ n ih =>
    intro hn i g
    rw [propNorm_succ,
      normalizeAt_entry (proportionalNormalize dss n) L n i g
        (propNorm_length_mem dss L n hall) (by omega),
      colTotal_propNorm dss n n (le_refl n)]
    by_cases hg : g = n
    · subst hg
      have hX : entryAt (proportionalNormalize dss g) i g = entryAt dss i g := by
        rw [ih (by omega) i g]
        simp
      rw [hX]
      by_cases hpos : 0 < colTotal dss g
      · rw [if_pos ⟨rfl, hpos⟩, if_pos ⟨by omega, hpos⟩]
      · rw [if_neg fun hc => hpos hc.2, if_neg fun hc => hpos hc.2]
    · rw [if_neg fun hc => hg hc.1, ih (by omega) i g]
      by_cases hlt : g < n
      · by_cases hpos : 0 < colTotal dss g
        · rw [if_pos ⟨hlt, hpos⟩, if_pos ⟨by omega, hpos⟩]
        · rw [if_neg fun hc => hpos hc.2, if_neg fun hc => hpos hc.2]
      · have hge : ¬ g < n + 1 := by omega
        rw [if_neg fun hc => hlt hc.1, if_neg fun hc => hge hc.1]

/-- C4 (amended): proportional normalization turns `[10,30]`/`[30,10]`
into `[25,75]`/`[75,25]`, and in general a position with positive total is
replaced by percentage shares while a position with non-positive total is
left unchanged (in particular an all-zero position stays zero, and the
positive-total guard means no division by zero is ever performed). -/
theorem claim4_proportional_amended :
    proportionalNormalize [[10, 30], [30, 10]] 2 = [[25, 75], [75, 25]] ∧
    (∀ (dss : List (List ℚ)) (L n : ℕ), (∀ d ∈ dss, d.length = L) → n ≤ L →
      ∀ i g, entryAt (proportionalNormalize dss n) i g =
        if g < n ∧ 0 < colTotal dss g then 100 * entryAt dss i g / colTotal dss g
        else entryAt dss i g) := by
  constructor
  · norm_num [proportionalNormalize, normalizeAt, colTotal, List.range_succ]
  · intro dss L n hall hn i g
    exact propNorm_entry dss L hall n hn i g

/-- Closed witness for C4: the characterization applied to the concrete
series at axis position 1 of series 0. -/
theorem claim4_witness :
    entryAt (proportionalNormalize [[10, 30], [30, 10]] 2) 0 1 =
      if 1 < 2 ∧ 0 < colTotal [[10, 30], [30, 10]] 1 then
        100 * entryAt [[10, 30], [30, 10]] 0 1 / colTotal [[10, 30], [30, 10]] 1
      else entryAt [[10, 30], [30, 10]] 0 1 :=
  claim4_proportional_amended.2 [[10, 30], [30, 10]] 2 2 (by decide) (le_refl 2) 0 1

/-- Counterexample for C4 as stated: at a position whose total is 0 the
code leaves the original values `5` and `-5` in place; the claim's "left
at 0 for all series" fails. -/
theorem claim4_counterexample :
    colTotal [[5], [-5]] 0 = 0 ∧
    proportionalNormalize [[5], [-5]] 1 = [[5], [-5]] ∧
    proportionalNormalize [[5], [-5]] 1 ≠ [[0], [0]] := by
  have h2 : proportionalNormalize [[(5 : ℚ)], [-5]] 1 = [[5], [-5]] := by
    norm_num [proportionalNormalize, normalizeAt, colTotal, List.range_succ]
  refine ⟨by norm_num [colTotal], h2, ?_⟩
  rw [h2]
  simp

theorem foldl_min_le_init (xs : List ℚ) (a : ℚ) : xs.foldl min a ≤ a := by
  induction xs generalizing a with
  | nil => exact le_refl a
  | cons x xs ih => exact le_trans (ih (min a x)) (min_le_left a x)

theorem foldl_min_le_mem (b : ℚ) : ∀ (xs : List ℚ) (a : ℚ), b ∈ xs → xs.foldl min a ≤ b := by
  intro xs
  induction xs with
  | nil => intro a h; cases h
  | cons x xs ih =>
    intro a h
    rcases List.mem_cons.mp h with rfl | hx
    · exact le_trans (foldl_min_le_init xs (min a b)) (min_le_right a b)
    · exact ih (min a x) hx

theorem listMin_le {values : List ℚ} {v : ℚ} (h : v ∈ values) : listMin values ≤ v := by
  cases values with
  | nil => cases h
  | cons x xs =>
    rcases List.mem_cons.mp h with rfl | hx
    · exact foldl_min_le_init xs v
    · exact foldl_min_le_mem v xs x hx

theorem foldl_max_init_le (xs : List ℚ) (a : ℚ) : a ≤ xs.foldl max a := by
  induction xs generalizing a with
  | nil => exact le_refl a
  | cons x xs ih => exact le_trans (le_max_left a x) (ih (max a x))

theorem foldl_max_mem_le (b : ℚ) : ∀ (xs : List ℚ) (a : ℚ), b ∈ xs → b ≤ xs.foldl max a := by
  intro xs
  induction xs with
  | nil => intro a h; cases h
  | cons x xs ih =>
    intro a h
    rcases List.mem_cons.mp h with rfl | hx
    · exact le_trans (le_max_right a b) (foldl_max_init_le xs (max a b))
    · exact ih (max a x) hx

theorem le_listMax {values : List ℚ} {v : ℚ} (h : v ∈ values) : v ≤ listMax values := by
  cases values with
  | nil => cases h
  | cons x xs =>
    rcases List.mem_cons.mp h with rfl | hx
    · exact foldl_max_init_le xs v
    · exact foldl_max_mem_le v xs x hx

theorem sum_map_add (L : List ℕ) (f g : ℕ → ℕ) :
    (L.map fun i => f i + g i).sum = (L.map f).sum + (L.map g).sum := by
  induction L with
  | nil => rfl
  | cons x xs ih =>
    simp only [List.map_cons, List.sum_cons, ih]
    omega

theorem sum_indicator (i₀ : ℕ) (p : ℕ → Bool) (hp : ∀ i, p i = true ↔ i = i₀) :
    ∀ n, i₀ < n → ((List.range n).map fun i => if p i then 1 else 0).sum = 1 := by
  intro n
  induction n with
  | zero => intro h; omega
  | succ n ih =>
    intro h
    rw [List.range_succ, List.map_append, List.sum_append]
    by_cases hn : i₀ = n
    · subst hn
      have hz : ((List.range i₀).map fun i => if p i then 1 else 0).sum = 0 := by
        apply List.sum_eq_zero
        intro x hx
        obtain ⟨i, hi, rfl⟩ := List.mem_map.mp hx
        have hne : ¬ i = i₀ := by
          have := List.mem_range.mp hi
          omega
        simp [hp i, hne]
      rw [hz]
      simp [hp i₀]
    · have hpn : ¬ (p n = true) := fun hc => hn ((hp n).mp hc).symm
      rw [ih (by omega)]
      simp [hpn]

theorem sum_countP_range {α : Type} (f : α → Option ℤ) (bc : ℕ) :
    ∀ l : List α, (∀ a ∈ l, ∃ i : ℕ, i < bc ∧ f a = some (i : ℤ)) →
      ((List.range bc).map fun i : ℕ =>
        l.countP fun a => decide (f a = some ((i : ℕ) : ℤ))).sum = l.length := by
  intro l
  induction l with
  | nil => intro _; simp
  | cons a l ih =>
    intro h
    obtain ⟨i₀, hi₀, hfa⟩ := h a (List.mem_cons_self a l)
    simp only [List.countP_cons]
    rw [sum_map_add, ih fun a0 ha0 => h a0 (List.mem_cons_of_mem _ ha0)]
    have hind : ((List.range bc).map
        fun i : ℕ => if decide (f a = some ((i : ℕ) : ℤ)) = true then 1 else 0).sum = 1 := by
      apply sum_indicator i₀ _ _ bc hi₀
      intro i
      simp only [decide_eq_true_eq, hfa, Option.some_inj]
      exact ⟨fun hc => by exact_mod_cast hc.symm, fun hc => by exact_mod_cast hc.symm⟩
    rw [hind]
    simp

theorem jsBinIndex_exists (mn mx : ℚ) (bc : ℕ) (hbc : 0 < bc) (hlt : mn < mx) (v : ℚ)
    (hv1 : mn ≤ v) (hv2 : v ≤ mx) :
    ∃ i : ℕ, i < bc ∧ jsBinIndex mn ((mx - mn) / (bc : ℚ)) bc v = some (i : ℤ) := by
  have hbcq : (0 : ℚ) < (bc : ℚ) := by exact_mod_cast hbc
  have hbs : 0 < (mx - mn) / (bc : ℚ) := div_pos (by linarith) hbcq
  unfold jsBinIndex
  rw [if_neg hbs.ne']
  have h1 : 0 ≤ (v - mn) / ((mx - mn) / (bc : ℚ)) := div_nonneg (by linarith) hbs.le
  have h2 : (v - mn) / ((mx - mn) / (bc : ℚ)) ≤ (bc : ℚ) := by
    rw [div_le_iff₀ hbs]
    have hmul : (bc : ℚ) * ((mx - mn) / (bc : ℚ)) = mx - mn := by
      rw [mul_comm, div_mul_cancel₀ _ hbcq.ne']
    linarith [hmul]
  have hfl0 : 0 ≤ ⌊(v - mn) / ((mx - mn) / (bc : ℚ))⌋ := Int.floor_nonneg.mpr h1
  have hflbc : ⌊(v - mn) / ((mx - mn) / (bc : ℚ))⌋ ≤ (bc : ℤ) := by
    have h3 := Int.floor_le_floor h2
    rwa [Int.floor_natCast] at h3
  by_cases hj : ⌊(v - mn) / ((mx - mn) / (bc : ℚ))⌋ = (bc : ℤ)
  · refine ⟨bc - 1, by omega, ?_⟩
    rw [if_pos hj]
    congr 1
    omega
  · refine ⟨(⌊(v - mn) / ((mx - mn) / (bc : ℚ))⌋).toNat, by omega, ?_⟩
    rw [if_neg hj]
    congr 1
    omega

theorem jsBinIndex_max_last (mn mx : ℚ) (bc : ℕ) (hbc : 0 < bc) (hlt : mn < mx) :
    jsBinIndex mn ((mx - mn) / (bc : ℚ)) bc mx = some ((bc : ℤ) - 1) := by
  have hbcq : (0 : ℚ) < (bc : ℚ) := by exact_mod_cast hbc
  have hbs : 0 < (mx - mn) / (bc : ℚ) := div_pos (by linarith) hbcq
  unfold jsBinIndex
  rw [if_neg hbs.ne']
  have hdiv : (mx - mn) / ((mx - mn) / (bc : ℚ)) = (bc : ℚ) := by
    have hne : mx - mn ≠ 0 := by linarith
    field_simp
  rw [hdiv, Int.floor_natCast, if_pos rfl]

theorem clog2_1000 : Nat.clog 2 1000 = 10 := by
  have h1 : Nat.clog 2 1000 ≤ 10 := (Nat.le_pow_iff_clog_le (by norm_num)).mp (by norm_num)
  have h2 : 9 < Nat.clog 2 1000 := (Nat.pow_lt_iff_lt_clog (by norm_num)).mp (by norm_num)
  omega

theorem clog2_2 : Nat.clog 2 2 = 1 := by
  have h1 : Nat.clog 2 2 ≤ 1 := (Nat.le_pow_iff_clog_le (by norm_num)).mp (by norm_num)
  have h2 : 0 < Nat.clog 2 2 := (Nat.pow_lt_iff_lt_clog (by norm_num)).mp (by norm_num)
  omega

/-- C3 (amended): for a column whose values are not all equal, the
histogram uses `binCount = max(5, min(30, ⌈log2 n⌉ + 1))` (11 at
`n = 1000`), every value lands in exactly one of the `binCount` bins so
the counts sum to `n`, and the maximum value's clamped index is the last
bin. -/
theorem claim3_histogram_amended (values : List ℚ) (hne : values ≠ [])
    (hlt : listMin values < listMax values) :
    binCount 1000 = 11 ∧
    (histogramCounts values).length = binCount values.length ∧
    (histogramCounts values).sum = values.length ∧
    jsBinIndex (listMin values)
        ((listMax values - listMin values) / (binCount values.length : ℚ))
        (binCount values.length) (listMax values) =
      some ((binCount values.length : ℤ) - 1) := by
  have hbc : 0 < binCount values.length :=
    lt_of_lt_of_le (by norm_num) (le_max_left 5 _)
  refine ⟨?_, ?_, ?_, ?_⟩
  · rw [binCount, clog2_1000]
    decide
  · simp [histogramCounts]
  · simp only [histogramCounts]
    apply sum_countP_range
    intro v hv
    exact jsBinIndex_exists (listMin values) (listMax values) _ hbc hlt v
      (listMin_le hv) (le_listMax hv)
  · exact jsBinIndex_max_last _ _ _ hbc hlt

/-- Closed witness for C3 on the column `[0, 10]`. -/
theorem claim3_witness :
    (([0, 10] : List ℚ) ≠ [] ∧ listMin [0, 10] < listMax [0, 10]) ∧
    (histogramCounts [0, 10]).sum = ([0, 10] : List ℚ).length := by
  have h := claim3_histogram_amended [0, 10] (by simp)
    (by norm_num [listMin, listMax])
  exact ⟨⟨by simp, by norm_num [listMin, listMax]⟩, h.2.2.1⟩

/-- Counterexample for C3 as stated: on the constant column `[5, 5]`
(`max = min`, bin width 0) the JS division yields `NaN` and every count
stays 0, so the bin counts sum to 0, not to the value count 2. -/
theorem claim3_counterexample :
    (([5, 5] : List ℚ) ≠ []) ∧ (histogramCounts [5, 5]).sum ≠ 2 := by
  have hbc : binCount 2 = 5 := by rw [binCount, clog2_2]; decide
  have hz : (histogramCounts [5, 5]).sum = 0 := by
    simp only [histogramCounts, List.length_cons, List.length_nil, hbc]
    norm_num [listMin, listMax, jsBinIndex]
    simp
  refine ⟨by simp, ?_⟩
  rw [hz]
  omega

/-- C5: the multi-series pivot yields exactly one series per distinct
category value, each labelled by its category and aligned to the sorted
(ascending, duplicate-free) domain of distinct axis values; an (axis,
category) pair with no matching row yields `null` (`none`), and one with
matching rows yields their mean. -/
theorem claim5_multi_series_pivot (rows : List PivotRow) :
    (multiSeriesPivot rows).length = (pivotCats rows).length ∧
    List.Sorted (· ≤ ·) (pivotDates rows) ∧
    (pivotDates rows).Nodup ∧
    (∀ d, d ∈ pivotDates rows ↔ d ∈ rows.map PivotRow.date) ∧
    (pivotCats rows).Nodup ∧
    (∀ c, c ∈ pivotCats rows ↔ c ∈ rows.map PivotRow.cat) ∧
    (∀ (i : ℕ) (s : String × List (Option ℚ)), (multiSeriesPivot rows)[i]? = some s →
      (pivotCats rows)[i]? = some s.1 ∧
      s.2.length = (pivotDates rows).length ∧
      ∀ (j : ℕ) (d : String), (pivotDates rows)[j]? = some d →
        s.2[j]? = some (pivotEntry rows s.1 d) ∧
        (s.2[j]? = some none ↔ ∀ r ∈ rows, ¬ (r.date = d ∧ r.cat = s.1)) ∧
        ∀ q, s.2[j]? = some (some q) →
          q = ((rows.filter fun r => decide (r.date = d ∧ r.cat = s.1)).map
                PivotRow.value).sum /
              (((rows.filter fun r => decide (r.date = d ∧ r.cat = s.1)).length : ℚ))) := by
  refine ⟨?_, ?_, ?_, ?_, ?_, ?_, ?_⟩
  · simp [multiSeriesPivot]
  · exact List.sorted_insertionSort (· ≤ ·) _
  · exact ((List.perm_insertionSort (· ≤ ·) _).nodup_iff).mpr nodup_firstDedup
  · intro d
    rw [pivotDates, List.mem_insertionSort, mem_firstDedup]
  · exact nodup_firstDedup
  · intro c
    rw [pivotCats, mem_firstDedup]
  · intro i s hs
    rw [multiSeriesPivot, List.getElem?_map] at hs
    obtain ⟨c, hc, hcs⟩ := Option.map_eq_some'.mp hs
    refine ⟨by rw [hc, ← hcs], by rw [← hcs]; simp, ?_⟩
    intro j d hd
    have hs2 : s.2 = (pivotDates rows).map fun d0 => pivotEntry rows s.1 d0 := by
      rw [← hcs]
    have hentry : s.2[j]? = some (pivotEntry rows s.1 d) := by
      rw [hs2, List.getElem?_map, hd, Option.map_some']
    refine ⟨hentry, ?_, ?_⟩
    · rw [hentry]
      rw [Option.some_inj]
      unfold pivotEntry
      constructor
      · intro hnone r hr hrd
        by_cases hlen : (rows.filter fun r => decide (r.date = d ∧ r.cat = s.1)).length = 0
        · have : r ∈ rows.filter fun r => decide (r.date = d ∧ r.cat = s.1) :=
            List.mem_filter.mpr ⟨hr, by simpa using hrd⟩
          rw [List.length_eq_zero.mp hlen] at this
          cases this
        · rw [if_neg hlen] at hnone
          cases hnone
      · intro hall
        rw [if_pos]
        rw [List.length_eq_zero, List.filter_eq_nil_iff]
        intro r hr
        simpa using hall r hr
    · intro q hq
      rw [hentry, Option.some_inj] at hq
      unfold pivotEntry at hq
      by_cases hlen : (rows.filter fun r => decide (r.date = d ∧ r.cat = s.1)).length = 0
      · rw [if_pos hlen] at hq
        cases hq
      · rw [if_neg hlen] at hq
        exact (Option.some_inj.mp hq).symm

/-- Closed witness for C5 on a two-row dataset with one missing (axis,
category) combination and one duplicated pair aggregated by mean. -/
theorem claim5_witness :
    (multiSeriesPivot
      [⟨"2024-01", "IG", 10⟩, ⟨"2024-01", "IG", 20⟩, ⟨"2024-02", "TT", 7⟩]).length =
      (pivotCats
        [⟨"2024-01", "IG", 10⟩, ⟨"2024-01", "IG", 20⟩, ⟨"2024-02", "TT", 7⟩]).length ∧
    List.Sorted (· ≤ ·)
      (pivotDates [⟨"2024-01", "IG", 10⟩, ⟨"2024-01", "IG", 20⟩, ⟨"2024-02", "TT", 7⟩]) := by
  have h := claim5_multi_series_pivot
    [⟨"2024-01", "IG", 10⟩, ⟨"2024-01", "IG", 20⟩, ⟨"2024-02", "TT", 7⟩]
  exact ⟨h.1, h.2.1⟩

theorem find?_eq_some_split {α : Type} {p : α → Bool} :
    ∀ {l : List α} {x : α}, l.find? p = some x →
      p x = true ∧ ∃ l₁ l₂, l = l₁ ++ x :: l₂ ∧ ∀ a ∈ l₁, p a = false := by
  intro l
  induction l with
  | nil => intro x h; simp [List.find?] at h
  | cons b l ih =>
    intro x h
    by_cases hb : p b = true
    · rw [List.find?_cons_of_pos _ hb, Option.some_inj] at h
      subst h
      exact ⟨hb, [], l, rfl, by simp⟩
    · rw [List.find?_cons_of_neg _ hb] at h
      obtain ⟨hp, l₁, l₂, rfl, hall⟩ := ih h
      refine ⟨hp, b :: l₁, l₂, rfl, ?_⟩
      intro a ha
      rcases List.mem_cons.mp ha with rfl | ha
      · exact Bool.not_eq_true _ ▸ hb
      · exact hall a ha

/-- Membership characterization of the JS `combinations` helper: for
`k ≥ 1` it enumerates exactly the length-`k` sublists of the column list
(so each combination respects the dataset's natural column order). -/
theorem mem_combinations :
    ∀ (arr : List String) (k : ℕ), 1 ≤ k → ∀ c : List String,
      (c ∈ combinations arr k ↔ c.length = k ∧ c.Sublist arr) := by
  intro arr
  induction arr with
  | nil =>
    intro k hk c
    match k, hk with
    | 1, _ =>
      simp only [combinations, List.map_nil, List.not_mem_nil, false_iff]
      rintro ⟨hlen, hsub⟩
      rw [List.sublist_nil.mp hsub] at hlen
      simp at hlen
    | (k' + 2), _ =>
      simp only [combinations, List.not_mem_nil, false_iff]
      rintro ⟨hlen, hsub⟩
      rw [List.sublist_nil.mp hsub] at hlen
      simp at hlen
  | cons x rest ih =>
    intro k hk c
    match k, hk with
    | 1, _ =>
      simp only [combinations, List.mem_map]
      constructor
      · rintro ⟨a, ha, rfl⟩
        exact ⟨rfl, List.singleton_sublist.mpr ha⟩
      · rintro ⟨hlen, hsub⟩
        match c, hlen with
        | [a], _ => exact ⟨a, List.singleton_sublist.mp hsub, rfl⟩
    | (k' + 2), _ =>
      simp only [combinations, List.mem_append, List.mem_map]
      constructor
      · rintro (⟨t, ht, rfl⟩ | h)
        · obtain ⟨hlen, hsub⟩ := (ih (k' + 1) (by omega) t).mp ht
          exact ⟨by simp [hlen], List.cons_sublist_cons.mpr hsub⟩
        · obtain ⟨hlen, hsub⟩ := (ih (k' + 2) (by omega) c).mp h
          exact ⟨hlen, List.sublist_cons_of_sublist x hsub⟩
      · rintro ⟨hlen, hsub⟩
        cases hsub with
        | cons _ h =>
          exact Or.inr ((ih (k' + 2) (by omega) c).mpr ⟨hlen, h⟩)
        | cons₂ _ h =>
          rename_i t
          exact Or.inl ⟨t, (ih (k' + 1) (by omega) t).mpr ⟨by simpa using hlen, h⟩, rfl⟩

/-- Membership characterization of the auto-select search list: the
nonempty sublists of the column list with at most 4 columns. -/
theorem mem_autoSearchList (cols : List String) (c : List String) :
    c ∈ autoSearchList cols ↔ c ≠ [] ∧ c.length ≤ 4 ∧ c.Sublist cols := by
  unfold autoSearchList
  rw [List.mem_flatMap]
  constructor
  · rintro ⟨k, hk, hc⟩
    rw [List.mem_range'_1] at hk
    obtain ⟨hlen, hsub⟩ := (mem_combinations cols k (by omega) c).mp hc
    refine ⟨?_, by omega, hsub⟩
    intro hnil
    rw [hnil] at hlen
    simp at hlen
    omega
  · rintro ⟨hne, hle, hsub⟩
    have hpos : 0 < c.length := List.length_pos.mpr hne
    have hcols : c.length ≤ cols.length := hsub.length_le
    refine ⟨c.length, ?_, (mem_combinations cols c.length (by omega) c).mpr ⟨rfl, hsub⟩⟩
    rw [List.mem_range'_1]
    omega

/-- C6: `getAutoSelectColumns` returns `none` exactly when no nonempty
combination of at most 4 columns satisfies any variant of the requested
family, and otherwise returns the first hit of the search list (sizes
1..4 in increasing order, each size enumerated in natural column order,
every variant of the family tried on each combination); the two closed
equations exhibit the enumeration order on concrete column lists. -/
theorem claim6_auto_select_search (numParse : String → Option ℚ) (chartType : String)
    (cols : List String) (types : String → ColType)
    (rows : Option (List (String → JSVal))) :
    (getAutoSelectColumns numParse chartType cols types rows = none ↔
      ∀ c : List String, c.Sublist cols → c ≠ [] → c.length ≤ 4 →
        anyVariantCompatible numParse chartType c types rows = false) ∧
    (∀ c, getAutoSelectColumns numParse chartType cols types rows = some c →
      anyVariantCompatible numParse chartType c types rows = true ∧
      ∃ l₁ l₂, autoSearchList cols = l₁ ++ c :: l₂ ∧
        ∀ c' ∈ l₁, anyVariantCompatible numParse chartType c' types rows = false) ∧
    (∀ (k : ℕ) (c : List String), 1 ≤ k →
      (c ∈ combinations cols k ↔ c.length = k ∧ c.Sublist cols)) ∧
    combinations ["a", "b", "c", "d"] 2 =
      [["a", "b"], ["a", "c"], ["a", "d"], ["b", "c"], ["b", "d"], ["c", "d"]] ∧
    autoSearchList ["a", "b", "c"] =
      [["a"], ["b"], ["c"], ["a", "b"], ["a", "c"], ["b", "c"], ["a", "b", "c"]] := by
  refine ⟨?_, ?_, ?_, ?_, ?_⟩
  · unfold getAutoSelectColumns
    rw [List.find?_eq_none]
    constructor
    · intro h c hsub hne hle
      have := h c (by rw [mem_autoSearchList]; exact ⟨hne, hle, hsub⟩)
      simpa using this
    · intro h c hc
      obtain ⟨hne, hle, hsub⟩ := (mem_autoSearchList cols c).mp hc
      simp [h c hsub hne hle]
  · intro c hsome
    unfold getAutoSelectColumns at hsome
    obtain ⟨hp, l₁, l₂, heq, hall⟩ := find?_eq_some_split hsome
    exact ⟨hp, l₁, l₂, heq, hall⟩
  · intro k c hk
    exact mem_combinations cols k hk c
  · rfl
  · rfl

/-- Closed witness for C6: on columns `a`,`b` with `a` numeric the
Histogram search returns `["a"]`, which is compatible and is preceded in
the search list by nothing incompatible. -/
theorem claim6_witness :
    anyVariantCompatible (fun _ => none) "Histogram" ["a"]
        (fun _ => ColType.numeric) none = true ∧
    ∃ l₁ l₂, autoSearchList ["a", "b"] = l₁ ++ ["a"] :: l₂ ∧
      ∀ c' ∈ l₁, anyVariantCompatible (fun _ => none) "Histogram" c'
        (fun _ => ColType.numeric) none = false := by
  apply (claim6_auto_select_search (fun _ => none) "Histogram" ["a", "b"]
    (fun _ => ColType.numeric) none).2.1 ["a"]
  rfl

end ChartSpec
